import Mathlib

/-!
Verification of the `modern` service-lifecycle library
(`src/modern/service.py`, `src/modern/threads.py`) against its
natural-language specification.

The Python code is shallowly embedded: the `Service` object becomes a
tree-shaped value (`Srv`), each lifecycle method becomes a pure function
from service values to service values, and every method additionally
returns a trace of observable events (callback-hook firings, resource
acquisitions/releases, and cooperative-suspension snapshots).  The
single-threaded cooperative scheduling of asyncio is idealised as
sequential execution: `asyncio.gather` over children is modelled as a
left-to-right fold, which is observation-equivalent for the properties
proved here.  Python exceptions are modelled as `Option Err` results
that carry the partially-mutated state, mirroring the fact that a
raising method leaves all assignments made before the `raise` in place.
-/

namespace Modern

/-- `ServiceState` from `modern/types` (imported by `modern/service.py`):
the six lifecycle states. -/
inductive SState where
  | INIT
  | STARTING
  | RUNNING
  | STOPPING
  | CRASHED
  | SHUTDOWN
deriving DecidableEq, Repr

/-- The exception kinds raised by the embedded methods:
`ServiceAlreadyRunError(state)`, `ServiceNotRunError(state)`, and
user-level errors (crash reasons, failing resource acquisitions),
identified by a numeric tag. -/
inductive Err where
  | alreadyRun (st : SState)
  | notRun (st : SState)
  | user (tag : Nat)
deriving DecidableEq, Repr

/-- A scoped resource (context manager) registered with `add_context` /
`add_async_context`.  `acquireOk = false` means its acquisition
(`__enter__` / `__aenter__`) raises `Err.user rid`. -/
structure Resource where
  rid : Nat
  acquireOk : Bool
deriving DecidableEq, Repr

/-- The kind of a spawned asyncio task: a guarded wrapper around a
registered task spec, or the implicit child-watch timer spawned by
`_create_my_tasks`. -/
inductive TaskKind where
  | guarded (spec : Nat)
  | watcher
deriving DecidableEq, Repr

/-- A live asyncio task tracked in `self._tasks`. -/
structure LiveTask where
  kind : TaskKind
  done : Bool
deriving DecidableEq, Repr

/-- The non-child fields of a `Service` object
(`Service.__init__`, `src/modern/service.py` lines 66-86). -/
structure Core where
  state : SState
  startCount : Nat
  shouldStop : Bool
  tasksToStart : List Nat
  tasks : List LiveTask
  stoppedSet : Bool
  asyncCMs : List Resource
  asyncExitStack : Option (List Nat)
  syncCMs : List Resource
  exitStack : Option (List Nat)
  crashReason : Option Nat
deriving DecidableEq, Repr

/-- A fresh service as produced by `Service.__init__`. -/
def freshCore : Core :=
  { state := .INIT
    startCount := 0
    shouldStop := false
    tasksToStart := []
    tasks := []
    stoppedSet := false
    asyncCMs := []
    asyncExitStack := none
    syncCMs := []
    exitStack := none
    crashReason := none }

/-- A service object: its own fields plus the owned `_children`. -/
inductive Srv where
  | mk (core : Core) (children : List Srv)
deriving Repr

def Srv.core : Srv → Core
  | .mk c _ => c

def Srv.children : Srv → List Srv
  | .mk _ cs => cs

/-- Observable events emitted by the embedded methods.  Hook events
carry the `state` of the service firing the hook at that moment.
`susp b st` is a cooperative-suspension snapshot: a point where the
event loop may run other coroutines, recording the observed service's
`(stopped.is_set(), state)` pair at that moment. -/
inductive Ev where
  | acqA (rid : Nat)
  | relA (rid : Nat)
  | acqS (rid : Nat)
  | relS (rid : Nat)
  | hFirstStart (st : SState)
  | hStart (st : SState)
  | hStarted (st : SState)
  | hStop (st : SState)
  | hShutdown (st : SState)
  | hRestart (st : SState)
  | susp (stoppedSet : Bool) (st : SState)
deriving DecidableEq, Repr

/-- When a parent method awaits a child method, the suspension points
inside the child call are suspension points of the parent call as well;
during them the parent's fields are frozen at their current values.
`relabel b st tr` re-labels every suspension snapshot of a child trace
with the parent's current `(stopped, state)` pair. -/
def relabel (b : Bool) (st : SState) : List Ev → List Ev :=
  List.map fun e =>
    match e with
    | .susp _ _ => .susp b st
    | e => e

/-- `_STATES_ACTIVE` (`src/modern/service.py` line 378). -/
def statesActive (st : SState) : Prop := st = .RUNNING ∨ st = .STOPPING

/-- `_STATES_INACTIVE` (line 379). -/
def statesInactive (st : SState) : Prop := st = .INIT ∨ st = .SHUTDOWN

/-- `_STATES_RESTARTABLE` (lines 380-382). -/
def statesRestartable (st : SState) : Prop :=
  st = .RUNNING ∨ st = .CRASHED ∨ st = .SHUTDOWN

instance : DecidablePred statesActive := fun st => by
  unfold statesActive; infer_instance

instance : DecidablePred statesInactive := fun st => by
  unfold statesInactive; infer_instance

instance : DecidablePred statesRestartable := fun st => by
  unfold statesRestartable; infer_instance

/-- Cancelling a set of tasks: every task becomes done. -/
def cancelAll (ts : List LiveTask) : List LiveTask :=
  ts.map fun t => { t with done := true }

/-- `Service._stop_running_tasks` (lines 323-338): if any task is still
running, perform two `asyncio.wait` calls (each a suspension point
snapshotting the service's current `(stopped, state)` pair) after which
every previously-running task has completed (cancelled). -/
def stopRunningTasks (c : Core) : Core × List Ev :=
  if (c.tasks.filter fun t => !t.done).isEmpty then (c, [])
  else
    ({ c with tasks := cancelAll c.tasks },
     [.susp c.stoppedSet c.state, .susp c.stoppedSet c.state])

/-- `Service._reset` (lines 313-321): clears `should_stop`, `_tasks`,
`_children`, both exit stacks, both context-manager lists and
`_crash_reason`.  `state`, `start_count`, `stopped` and
`_tasks_to_start` are untouched (children are cleared at the `Srv`
level by the caller). -/
def resetCore (c : Core) : Core :=
  { c with
    shouldStop := false
    tasks := []
    asyncExitStack := none
    asyncCMs := []
    exitStack := none
    syncCMs := []
    crashReason := none }

mutual

/-- `Service.crash` (lines 175-187).  Guard: state must be in
`_STATES_ACTIVE`.  Then: `should_stop := true`; await
`_stop_running_tasks`; `stopped.set()`; crash every child whose state
is active (sequential `for` loop, each crash awaited); record the
reason; `state := CRASHED`. -/
def crash (reason : Nat) : Srv → Option Err × Srv × List Ev
  | .mk c cs =>
    if c.state = .RUNNING ∨ c.state = .STOPPING then
      let c1 : Core := { c with shouldStop := true }
      let r1 := stopRunningTasks c1
      let c2 : Core := { r1.1 with stoppedSet := true }
      match crashChildren reason cs with
      | (some e, cs', t2) =>
          (some e, .mk c2 cs', r1.2 ++ relabel c2.stoppedSet c2.state t2)
      | (none, cs', t2) =>
          (none,
           .mk { c2 with crashReason := some reason, state := .CRASHED } cs',
           r1.2 ++ relabel c2.stoppedSet c2.state t2)
    else (some (.notRun c.state), .mk c cs, [])

/-- The `for child in self._children` loop of `Service.crash`
(lines 183-185): crash each child whose state is active; a raising
child aborts the loop (remaining children untouched). -/
def crashChildren (reason : Nat) : List Srv → Option Err × List Srv × List Ev
  | [] => (none, [], [])
  | x :: xs =>
    if x.core.state = .RUNNING ∨ x.core.state = .STOPPING then
      match crash reason x with
      | (some e, x', t) => (some e, x' :: xs, t)
      | (none, x', t) =>
        match crashChildren reason xs with
        | (e2, xs', t2) => (e2, x' :: xs', t ++ t2)
    else
      match crashChildren reason xs with
      | (e2, xs', t2) => (e2, x :: xs', t2)

end

mutual

/-- `Service._do_shutdown` (lines 340-359): `state := STOPPING`; fire
`on_stop`; `should_stop := true`; stop all children; unwind the async
exit stack (releases in reverse entry order), then the sync exit stack;
await `_stop_running_tasks`; `stopped.set()`; `state := SHUTDOWN`; fire
`on_shutdown`; `_reset()` (which also clears the children list). -/
def doShutdown : Srv → Srv × List Ev
  | .mk c cs =>
    let c1 : Core := { c with state := .STOPPING }
    let c2 : Core := { c1 with shouldStop := true }
    let rc := stopChildren cs
    let ra : Core × List Ev :=
      match c2.asyncExitStack with
      | none => (c2, [])
      | some entered =>
          ({ c2 with asyncExitStack := some [] }, entered.reverse.map Ev.relA)
    let rs : Core × List Ev :=
      match ra.1.exitStack with
      | none => (ra.1, [])
      | some entered =>
          ({ ra.1 with exitStack := some [] }, entered.reverse.map Ev.relS)
    let rt := stopRunningTasks rs.1
    let c6 : Core := { rt.1 with stoppedSet := true, state := .SHUTDOWN }
    (.mk (resetCore c6) [],
     Ev.hStop c1.state ::
       (relabel c2.stoppedSet c2.state rc.2 ++ ra.2 ++ rs.2 ++ rt.2 ++
        [Ev.hShutdown c6.state]))

/-- The `asyncio.gather(*(child.stop() ...))` of `_do_shutdown`
(lines 345-346), idealised as a sequential fold; each `child.stop()`
is a no-op when the child's `stopped` event is already set
(lines 189-193). -/
def stopChildren : List Srv → List Srv × List Ev
  | [] => ([], [])
  | x :: xs =>
    let r := if x.core.stoppedSet then (x, []) else doShutdown x
    let r2 := stopChildren xs
    (r.1 :: r2.1, r.2 ++ r2.2)

end

/-- `Service.stop` (lines 189-193): no-op when `stopped` is already
set, otherwise run `_do_shutdown`. -/
def stop (s : Srv) : Srv × List Ev :=
  if s.core.stoppedSet then (s, []) else doShutdown s

/-- One pass of `AsyncExitStack.enter_async_context` /
`ExitStack.enter_context` over a context-manager list: each successful
acquisition appends the resource to the stack (entry order) and emits
an acquire event; a failing acquisition aborts the loop, leaving the
stack at the resources entered so far (CPython's `ExitStack` does not
unwind on a failing `enter`; the exception simply propagates). -/
def enterAll (ev : Nat → Ev) : List Nat → List Resource →
    Option Nat × List Nat × List Ev
  | acc, [] => (none, acc, [])
  | acc, r :: rs =>
    if r.acquireOk then
      match enterAll ev (acc ++ [r.rid]) rs with
      | (e, st, t) => (e, st, ev r.rid :: t)
    else (some r.rid, acc, [])

/-- `Service._create_my_tasks` (lines 237-249): spawn a guarded task
for each registered spec (in registration order), then the implicit
child-watch timer task. -/
def spawnTasks (c : Core) : Core :=
  { c with
    tasks := c.tasks ++
      (c.tasksToStart.map fun n => LiveTask.mk (.guarded n) false) ++
      [LiveTask.mk .watcher false] }

mutual

/-- `Service.start` (lines 131-166).  Guard: state must be in
`_STATES_INACTIVE`.  Then: `state := STARTING`; `stopped.clear()`;
fire `on_first_start` when `start_count == 0`; fire `on_start`;
`maybe_start` every child; enter the async context managers into a
fresh `AsyncExitStack` (on failure the error propagates with the stack
holding the resources entered so far and the pending list uncleared),
then the sync ones into an `ExitStack`; spawn the tasks;
`state := RUNNING`; fire `on_started`; `start_count += 1`. -/
def start : Srv → Option Err × Srv × List Ev
  | .mk c cs =>
    if c.state = .INIT ∨ c.state = .SHUTDOWN then
      let c1 : Core := { c with state := .STARTING, stoppedSet := false }
      let tHooks : List Ev :=
        (if c1.startCount = 0 then [Ev.hFirstStart c1.state] else []) ++
        [Ev.hStart c1.state]
      match startChildren cs with
      | (some e, cs', tC) =>
          (some e, .mk c1 cs', tHooks ++ relabel c1.stoppedSet c1.state tC)
      | (none, cs', tC) =>
        let tC' := relabel c1.stoppedSet c1.state tC
        let ra : Option Nat × Core × List Ev :=
          if c1.asyncCMs.isEmpty then (none, c1, [])
          else
            match enterAll Ev.acqA [] c1.asyncCMs with
            | (none, entered, t) =>
                (none, { c1 with asyncExitStack := some entered,
                                 asyncCMs := [] }, t)
            | (some rid, entered, t) =>
                (some rid, { c1 with asyncExitStack := some entered }, t)
        match ra with
        | (some rid, c2, tA) =>
            (some (.user rid), .mk c2 cs', tHooks ++ tC' ++ tA)
        | (none, c2, tA) =>
          let rsy : Option Nat × Core × List Ev :=
            if c2.syncCMs.isEmpty then (none, c2, [])
            else
              match enterAll Ev.acqS [] c2.syncCMs with
              | (none, entered, t) =>
                  (none, { c2 with exitStack := some entered,
                                   syncCMs := [] }, t)
              | (some rid, entered, t) =>
                  (some rid, { c2 with exitStack := some entered }, t)
          match rsy with
          | (some rid, c3, tS) =>
              (some (.user rid), .mk c3 cs', tHooks ++ tC' ++ tA ++ tS)
          | (none, c3, tS) =>
            let c4 : Core := { spawnTasks c3 with state := .RUNNING }
            let c5 : Core := { c4 with startCount := c4.startCount + 1 }
            (none, .mk c5 cs',
             tHooks ++ tC' ++ tA ++ tS ++ [Ev.hStarted c4.state])
    else (some (.alreadyRun c.state), .mk c cs, [])

/-- The `asyncio.gather(*(child.maybe_start() ...))` of `Service.start`
(lines 141-144), idealised as a sequential fold; `maybe_start`
(lines 168-173) starts only children in INIT.  A raising child aborts
the gather (remaining children untouched). -/
def startChildren : List Srv → Option Err × List Srv × List Ev
  | [] => (none, [], [])
  | x :: xs =>
    if x.core.state = .INIT then
      match start x with
      | (some e, x', t) => (some e, x' :: xs, t)
      | (none, x', t) =>
        match startChildren xs with
        | (e2, xs', t2) => (e2, x' :: xs', t ++ t2)
    else
      match startChildren xs with
      | (e2, xs', t2) => (e2, x :: xs', t2)

end

/-- `Service.maybe_start` (lines 168-173): start when in INIT (result
`true`), else `false` without any transition. -/
def maybeStart (s : Srv) : Option Err × Srv × List Ev × Bool :=
  if s.core.state = .INIT then
    match start s with
    | (e, s', t) => (e, s', t, e.isNone)
  else (none, s, [], false)

/-- `Service.restart` (lines 198-204).  Guard: state must be in
`_STATES_RESTARTABLE`.  Then `_do_shutdown`; fire `on_restart`;
`start`. -/
def restart (s : Srv) : Option Err × Srv × List Ev :=
  if s.core.state = .RUNNING ∨ s.core.state = .CRASHED ∨
      s.core.state = .SHUTDOWN then
    let r1 := doShutdown s
    match start r1.1 with
    | (e, s2, t2) =>
        (e, s2, r1.2 ++ [Ev.hRestart r1.1.core.state] ++ t2)
  else (some (.notRun s.core.state), s, [])

/-- `Service.add_task` (lines 228-232): reject unless in INIT, else
append the spec to `_tasks_to_start`. -/
def addTask (s : Srv) (f : Nat) : Option Err × Srv :=
  if s.core.state = .INIT then
    (none, .mk { s.core with tasksToStart := s.core.tasksToStart ++ [f] }
             s.children)
  else (some (.alreadyRun s.core.state), s)

/-- The possible behaviours of `Service.wait_until_stopped`. -/
inductive WaitRes where
  | immediate
  | raisesNotRun (st : SState)
  | waitsForStopped
deriving DecidableEq, Repr

/-- `Service.wait_until_stopped` (lines 206-211): return immediately
when `stopped` is set; raise `ServiceNotRunError` when the state is not
RUNNING; otherwise await the `stopped` event. -/
def waitUntilStopped (c : Core) : WaitRes :=
  if c.stoppedSet then .immediate
  else if c.state ≠ .RUNNING then .raisesNotRun c.state
  else .waitsForStopped

/-! ### Thread-hosted variant (`src/modern/threads.py`)

`ServiceThread.crash` / `ServiceThread.stop` decide, from the currently
running event loop and the stored `ThreadData`, whether to run the base
operation directly or to submit it to another loop with
`asyncio.run_coroutine_threadsafe`.  Event loops are identified by
numeric ids; `threadData` is `some parentLoop` when the thread is
running (it stores `ThreadData.parent_loop`). -/

/-- How the thread-variant routes a lifecycle operation. -/
inductive Dispatch where
  | raisesNotRun
  | direct
  | toLoop (loop : Nat)
deriving DecidableEq, Repr

/-- `ServiceThread.crash` (`src/modern/threads.py` lines 29-41): raise
`ServiceNotRunError` when `_thread_data is None`; run `super().crash`
directly when the running loop is the parent loop; otherwise submit
`super().crash` to the parent loop via `run_coroutine_threadsafe`. -/
def threadCrashDispatch (threadData : Option Nat) (currentLoop : Nat) :
    Dispatch :=
  match threadData with
  | none => .raisesNotRun
  | some parentLoop =>
    if currentLoop = parentLoop then .direct else .toLoop parentLoop

/-- `ServiceThread.stop` (lines 43-55): run `super().stop()` directly
when `_thread_data is None` or when the running loop is the parent
loop; otherwise submit `self.stop()` to the parent loop via
`run_coroutine_threadsafe`. -/
def threadStopDispatch (threadData : Option Nat) (currentLoop : Nat) :
    Dispatch :=
  match threadData with
  | none => .direct
  | some parentLoop =>
    if currentLoop = parentLoop then .direct else .toLoop parentLoop

/-! ### Guarded task wrapper (`Service._make_guarded_task`, lines 251-273)

The body of one invocation of the wrapped task either returns normally,
raises `asyncio.CancelledError`, or raises some other exception
(identified by a numeric tag).  The environment is a function giving
the outcome of the `i`-th invocation. -/

/-- Outcome of one invocation of a task body. -/
inductive BodyRes where
  | ok
  | cancelled
  | err (e : Nat)
deriving DecidableEq, Repr

/-- Final behaviour of the guarded wrapper: normal completion,
propagated `CancelledError`, or `asyncio.create_task(self.crash(reason))`
scheduled after the retry budget is spent (`reason` is the last
recorded error; it is `none` only in the unreachable case of the
budget being spent with no failure recorded). -/
inductive GuardOut where
  | completed
  | cancelledProp
  | crashScheduled (reason : Option Nat)
deriving DecidableEq, Repr

/-- The `for fail in range(10)` loop of `_make_guarded_task._task`:
`remaining` attempts are left, `attempt` is the index of the next body
invocation, `last` is the error recorded so far.  Returns the final
behaviour and the number of body invocations performed. -/
def guardedGo (body : Nat → BodyRes) :
    Nat → Nat → Option Nat → GuardOut × Nat
  | 0, _, last => (.crashScheduled last, 0)
  | r + 1, a, _last =>
    match body a with
    | .ok => (.completed, 1)
    | .cancelled => (.cancelledProp, 1)
    | .err e =>
      match guardedGo body r (a + 1) (some e) with
      | (o, n) => (o, n + 1)

/-- `Service._make_guarded_task` (lines 251-273): run the body with a
budget of 10 attempts. -/
def guardedTask (body : Nat → BodyRes) : GuardOut × Nat :=
  guardedGo body 10 0 none

/-! ### Timer wrapper (`Service._make_timer_task`, lines 294-311)

`self._should_stop` is read once at the `while` condition and once
after each sleep; reads are numbered consecutively and `reads i` is the
value seen by the `i`-th read (the flag may change while the coroutine
is suspended in `asyncio.sleep` or in the body).  The trace records
each `asyncio.sleep(interval)` and each invocation of the body.  The
loop is driven by `fuel` iterations (the Python loop is unbounded). -/

/-- Events of the timer wrapper. -/
inductive TEv where
  | sleeps
  | invokes
deriving DecidableEq, Repr

/-- The `while self._should_stop is False` loop of the timer wrapper:
exit when the flag reads true; otherwise sleep one interval, re-read
the flag, and invoke the body only when it still reads false. -/
def timerGo (reads : Nat → Bool) : Nat → Nat → List TEv
  | 0, _ => []
  | fuel + 1, r =>
    if reads r then []
    else
      TEv.sleeps ::
        (if reads (r + 1) then timerGo reads fuel (r + 2)
         else TEv.invokes :: timerGo reads fuel (r + 2))

/-- `Service._make_timer_task` run from the first read. -/
def timerTrace (reads : Nat → Bool) (fuel : Nat) : List TEv :=
  timerGo reads fuel 0

/-- `should_stop` is monotone during a run: once it reads true it keeps
reading true (it is set by `crash`/`_do_shutdown` and only reset by
`_reset` after the tasks are cancelled). -/
def MonoReads (reads : Nat → Bool) : Prop :=
  ∀ i j, i ≤ j → reads i = true → reads j = true

/-! ### Derived notions used by the theorems -/

/-- Resource-release events (`__aexit__` / `__exit__` of a scoped
resource). -/
def isRelease : Ev → Bool
  | .relA _ => true
  | .relS _ => true
  | _ => false

/-- The resource-release events of a trace. -/
def releases (t : List Ev) : List Ev := t.filter isRelease

/-- The states in which the `stopped` notification is supposed to be
set (spec invariant 3 / testable property 1). -/
def isStoppedState : SState → Bool
  | .SHUTDOWN => true
  | .CRASHED => true
  | _ => false

/-- The `stopped`/`state` equivalence for one service's own fields:
`stopped` is set iff the state is SHUTDOWN or CRASHED. -/
def coreQinv (c : Core) : Bool :=
  c.stoppedSet == isStoppedState c.state

mutual

/-- The `stopped`/`state` equivalence for a service and all its
descendants. -/
def qinv : Srv → Bool
  | .mk c cs => coreQinv c && allQinv cs

def allQinv : List Srv → Bool
  | [] => true
  | x :: xs => qinv x && allQinv xs

end

/-! ### Concrete services used in counterexamples and witnesses -/

/-- A service that has been started once and is RUNNING, with one
never-started child (reached by `add_dependency` then `start`,
idealised fields). -/
def cRunning : Core := { freshCore with state := .RUNNING, startCount := 1 }

/-- A RUNNING parent owning one registered (INIT) child. -/
def sRunWithChild : Srv := .mk cRunning [.mk freshCore []]

/-- A crashed service (as left by `crash`). -/
def crashedCore : Core :=
  { freshCore with
    state := .CRASHED, startCount := 1, stoppedSet := true,
    shouldStop := true, crashReason := some 5 }

/-- A fresh parent owning one already-crashed child. -/
def sInitWithCrashedChild : Srv := .mk freshCore [.mk crashedCore []]

/-- A fresh service registered with two async scoped resources, the
second of which fails to acquire. -/
def cAcqFail : Core :=
  { freshCore with asyncCMs := [⟨1, true⟩, ⟨2, false⟩] }

/-- A RUNNING child that still owns one live (not done) task. -/
def busyChild : Srv :=
  .mk { cRunning with tasks := [⟨.watcher, false⟩] } []

/-- A RUNNING parent owning one RUNNING child with a live task. -/
def sRunWithBusyChild : Srv := .mk cRunning [busyChild]

/-! ## Theorems -/

/-- C2 (counterexample): with the thread running (`_thread_data` holds
parent loop `0`), `crash` and `stop` invoked from the parent loop (loop
`0`) execute the operation directly — they do not dispatch to any other
loop, contradicting the claim that calls from the parent loop are
dispatched to the child loop. -/
theorem C2_counterexample :
    threadCrashDispatch (some 0) 0 = .direct ∧
    threadStopDispatch (some 0) 0 = .direct ∧
    ∀ l : Nat, Dispatch.direct ≠ Dispatch.toLoop l := by
  refine ⟨rfl, rfl, fun l h => Dispatch.noConfusion h⟩

/-- C2 (amended): with the thread running, `stop`/`crash` invoked from
the parent loop execute directly; invoked from any other (the child)
loop they are dispatched to the PARENT loop via
`asyncio.run_coroutine_threadsafe`.  Without thread data, `crash`
raises `ServiceNotRunError` while `stop` executes directly. -/
theorem C2_thread_dispatch (parentLoop cur : Nat) :
    (threadCrashDispatch (some parentLoop) cur =
      if cur = parentLoop then .direct else .toLoop parentLoop) ∧
    (threadStopDispatch (some parentLoop) cur =
      if cur = parentLoop then .direct else .toLoop parentLoop) ∧
    threadCrashDispatch none cur = .raisesNotRun ∧
    threadStopDispatch none cur = .direct :=
  ⟨rfl, rfl, rfl, rfl⟩

/-- C2 (witness): the dispatch decision evaluated with parent loop `0`
from loop `0` (direct) and from loop `1` (cross-loop dispatch to the
parent loop). -/
theorem C2_witness :
    threadCrashDispatch (some 0) 1 = .toLoop 0 ∧
    threadStopDispatch (some 0) 1 = .toLoop 0 ∧
    threadCrashDispatch (some 0) 0 = .direct := by
  have h1 := (C2_thread_dispatch 0 1).1
  have h2 := (C2_thread_dispatch 0 1).2.1
  have h3 := (C2_thread_dispatch 0 0).1
  simp only [if_neg (by decide : ¬ (1 = 0))] at h1 h2
  simp only [if_pos rfl] at h3
  exact ⟨h1, h2, h3⟩

/-- C8 (counterexample): a service observed in state STARTING with
`stopped` cleared (as it is while `start()` is awaiting children or
resources): `wait_until_stopped` raises `ServiceNotRunError` although
the state is not INIT, contradicting the claimed "raises iff INIT and
not yet stopped". -/
theorem C8_counterexample :
    waitUntilStopped { freshCore with state := .STARTING } =
      .raisesNotRun .STARTING ∧
    SState.STARTING ≠ .INIT := by
  exact ⟨rfl, by decide⟩

/-- C8 (amended): `wait_until_stopped` returns immediately iff
`stopped` is set; with `stopped` not set it raises `ServiceNotRunError`
iff the state is not RUNNING (so also for STARTING and STOPPING, not
only INIT); otherwise it awaits the `stopped` event (resolving when it
becomes set). -/
theorem C8_wait_until_stopped (c : Core) :
    (waitUntilStopped c = .immediate ↔ c.stoppedSet = true) ∧
    (waitUntilStopped c = .raisesNotRun c.state ↔
      (c.stoppedSet = false ∧ c.state ≠ .RUNNING)) ∧
    (waitUntilStopped c = .waitsForStopped ↔
      (c.stoppedSet = false ∧ c.state = .RUNNING)) := by
  unfold waitUntilStopped
  by_cases h1 : c.stoppedSet <;> by_cases h2 : c.state = .RUNNING <;>
    simp [h1, h2]

/-- C8 (witness): the three behaviours of `wait_until_stopped` at
concrete cores: already stopped, fresh INIT, and RUNNING. -/
theorem C8_witness :
    waitUntilStopped { freshCore with stoppedSet := true } = .immediate ∧
    waitUntilStopped freshCore = .raisesNotRun .INIT ∧
    waitUntilStopped { freshCore with state := .RUNNING } =
      .waitsForStopped := by
  refine ⟨(C8_wait_until_stopped _).1.mpr rfl, ?_, ?_⟩
  · exact (C8_wait_until_stopped freshCore).2.1.mpr ⟨rfl, by decide⟩
  · exact (C8_wait_until_stopped _).2.2.mpr ⟨rfl, rfl⟩

/-- Step equation of the guarded loop. -/
theorem guardedGo_succ (body : Nat → BodyRes) (r a : Nat)
    (last : Option Nat) :
    guardedGo body (r + 1) a last =
      match body a with
      | .ok => (.completed, 1)
      | .cancelled => (.cancelledProp, 1)
      | .err e =>
        ((guardedGo body r (a + 1) (some e)).1,
         (guardedGo body r (a + 1) (some e)).2 + 1) := rfl

/-- The guarded loop performs at most as many body invocations as it
has remaining attempts. -/
theorem guardedGo_count_le (body : Nat → BodyRes) :
    ∀ r a last, (guardedGo body r a last).2 ≤ r := by
  intro r
  induction r with
  | zero => intro a last; simp [guardedGo]
  | succ n ih =>
    intro a last
    rw [guardedGo_succ]
    cases body a with
    | ok => simp
    | cancelled => simp
    | err e =>
      have := ih (a + 1) (some e)
      simp only []
      omega

/-- If every attempt from `a` through `a + r` fails, the guarded loop
with `r + 1` remaining attempts performs them all and schedules a crash
with the last error. -/
theorem guardedGo_all_err (body : Nat → BodyRes) (e : Nat → Nat) :
    ∀ r a last, (∀ j, j ≤ r → body (a + j) = .err (e (a + j))) →
      guardedGo body (r + 1) a last =
        (.crashScheduled (some (e (a + r))), r + 1) := by
  intro r
  induction r with
  | zero =>
    intro a last h
    have h0 := h 0 (by omega)
    simp only [Nat.add_zero] at h0 ⊢
    rw [guardedGo_succ, h0]
    simp [guardedGo]
  | succ n ih =>
    intro a last h
    have h0 := h 0 (by omega)
    simp only [Nat.add_zero] at h0
    have hrest : ∀ j, j ≤ n → body (a + 1 + j) = .err (e (a + 1 + j)) := by
      intro j hj
      have := h (j + 1) (by omega)
      have harith : a + (j + 1) = a + 1 + j := by omega
      rwa [harith] at this
    have hrec := ih (a + 1) (some (e a)) hrest
    rw [guardedGo_succ, h0]
    simp only [hrec]
    have harith : a + 1 + n = a + (n + 1) := by omega
    rw [harith]

/-- If the first `k` attempts fail and attempt `k` raises
`CancelledError` (with `k` inside the budget), the guarded loop
propagates the cancellation after exactly `k + 1` invocations. -/
theorem guardedGo_cancel_at (body : Nat → BodyRes) (e : Nat → Nat) :
    ∀ k r a last, k < r →
      (∀ j, j < k → body (a + j) = .err (e (a + j))) →
      body (a + k) = .cancelled →
      guardedGo body r a last = (.cancelledProp, k + 1) := by
  intro k
  induction k with
  | zero =>
    intro r a last hlt _ hcan
    obtain ⟨r', rfl⟩ : ∃ r', r = r' + 1 := ⟨r - 1, by omega⟩
    simp only [Nat.add_zero] at hcan
    rw [guardedGo_succ, hcan]
  | succ n ih =>
    intro r a last hlt herr hcan
    obtain ⟨r', rfl⟩ : ∃ r', r = r' + 1 := ⟨r - 1, by omega⟩
    have h0 := herr 0 (by omega)
    simp only [Nat.add_zero] at h0
    have hrest : ∀ j, j < n → body (a + 1 + j) = .err (e (a + 1 + j)) := by
      intro j hj
      have := herr (j + 1) (by omega)
      have harith : a + (j + 1) = a + 1 + j := by omega
      rwa [harith] at this
    have hcan' : body (a + 1 + n) = .cancelled := by
      have harith : a + (n + 1) = a + 1 + n := by omega
      rwa [harith] at hcan
    have hrec := ih r' (a + 1) (some (e a)) (by omega) hrest hcan'
    rw [guardedGo_succ, h0]
    simp [hrec]

/-- C5 (confirmed): the guarded wrapper invokes the body at most 10
times; a cooperative cancellation raised at attempt `k` (after `k`
failures) is propagated immediately after exactly `k + 1` invocations
and is never retried, and no crash is scheduled for it; and if all 10
attempts fail, the wrapper schedules `crash` on the owning service with
the last recorded error (the error of the 10th attempt) and exits after
exactly 10 invocations. -/
theorem C5_guarded_task (body : Nat → BodyRes) (e : Nat → Nat) :
    (guardedTask body).2 ≤ 10 ∧
    ((∀ j, j ≤ 9 → body j = .err (e j)) →
      guardedTask body = (.crashScheduled (some (e 9)), 10)) ∧
    (∀ k, k < 10 → (∀ j, j < k → body j = .err (e j)) →
      body k = .cancelled →
      guardedTask body = (.cancelledProp, k + 1)) := by
  refine ⟨guardedGo_count_le body 10 0 none, ?_, ?_⟩
  · intro h
    have := guardedGo_all_err body e 9 0 none (by
      intro j hj
      simpa using h j (by omega))
    simpa [guardedTask] using this
  · intro k hk herr hcan
    have := guardedGo_cancel_at body e k 10 0 none hk (by
      intro j hj
      simpa using herr j hj) (by simpa using hcan)
    simpa [guardedTask] using this

/-- C5 (witness): a body that fails twice and is then cancelled is
invoked exactly 3 times with the cancellation propagated; a body that
always fails yields a scheduled crash with the 10th error after exactly
10 invocations. -/
theorem C5_witness :
    guardedTask
        (fun i => if i < 2 then .err i else .cancelled) =
      (.cancelledProp, 3) ∧
    guardedTask (fun i => .err (i * i)) =
      (.crashScheduled (some 81), 10) := by
  constructor
  · exact (C5_guarded_task (fun i => if i < 2 then .err i else .cancelled)
      (fun i => i)).2.2 2 (by decide)
      (fun j hj => by simp only [if_pos hj])
      (by decide)
  · have := (C5_guarded_task (fun i => .err (i * i)) (fun i => i * i)).2.1
      (fun j _ => rfl)
    simpa using this

/-- The timer trace never begins with a body invocation: the body can
only run after the first `asyncio.sleep(interval)`. -/
theorem timerGo_head (reads : Nat → Bool) :
    ∀ fuel r, timerGo reads fuel r = [] ∨
      ∃ t, timerGo reads fuel r = TEv.sleeps :: t := by
  intro fuel r
  cases fuel with
  | zero => exact .inl rfl
  | succ n =>
    by_cases h : reads r
    · exact .inl (by simp [timerGo, h])
    · exact .inr ⟨if reads (r + 1) = true then timerGo reads n (r + 2)
        else TEv.invokes :: timerGo reads n (r + 2), by simp [timerGo, h]⟩

/-- Once `should_stop` reads true, the timer loop exits without any
further event. -/
theorem timerGo_stop (reads : Nat → Bool) :
    ∀ fuel r, reads r = true → timerGo reads fuel r = [] := by
  intro fuel r h
  cases fuel with
  | zero => rfl
  | succ n => simp [timerGo, h]

/-- C7 (confirmed): in every run of the timer wrapper, any body
invocation is preceded by a sleep of one interval (in particular the
body is never invoked immediately at start), and when `should_stop`
reads true at the pre-invocation check the body is not invoked and the
loop exits cleanly (no event after that sleep). -/
theorem C7_timer (reads : Nat → Bool) (fuel r : Nat) :
    (∀ pre post, timerGo reads fuel r = pre ++ TEv.invokes :: post →
      TEv.sleeps ∈ pre) ∧
    (MonoReads reads → reads (r + 1) = true →
      timerGo reads (fuel + 1) r = [] ∨
        timerGo reads (fuel + 1) r = [TEv.sleeps]) := by
  constructor
  · intro pre post h
    rcases timerGo_head reads fuel r with h0 | ⟨t, h0⟩
    · rw [h0] at h
      exact absurd h (by simp)
    · rw [h0] at h
      cases pre with
      | nil => simp at h
      | cons p pre' =>
        have : p = TEv.sleeps := by
          have := congrArg List.head? h
          simpa using this.symm
        simp [this]
  · intro hm h1
    by_cases h0 : reads r
    · exact .inl (timerGo_stop reads _ r h0)
    · refine .inr ?_
      have h2 : reads (r + 2) = true := hm (r + 1) (r + 2) (by omega) h1
      simp [timerGo, h0, h1, timerGo_stop reads fuel (r + 2) h2]

/-- C7 (witness): with `should_stop` becoming true from the second read
on, the timer performs one sleep and exits without invoking the body;
and in a run that does invoke the body, a sleep precedes the
invocation. -/
theorem C7_witness :
    (timerGo (fun i => decide (1 ≤ i)) (2 + 1) 0 = [] ∨
      timerGo (fun i => decide (1 ≤ i)) (2 + 1) 0 = [TEv.sleeps]) ∧
    TEv.sleeps ∈ [TEv.sleeps] := by
  constructor
  · exact (C7_timer (fun i => decide (1 ≤ i)) 2 0).2
      (by intro i j hij hi; simp_all; omega) (by decide)
  · exact (C7_timer (fun _ => false) 1 0).1 [TEv.sleeps] []
      (by decide)

/-- `_do_shutdown` always leaves the service in SHUTDOWN with `stopped`
set, the per-run fields reset and the children list cleared; only
`start_count` and `tasks_to_start` survive. -/
theorem doShutdown_srv (c : Core) (cs : List Srv) :
    (doShutdown (.mk c cs)).1 = .mk
      { state := .SHUTDOWN
        startCount := c.startCount
        shouldStop := false
        tasksToStart := c.tasksToStart
        tasks := []
        stoppedSet := true
        asyncCMs := []
        asyncExitStack := none
        syncCMs := []
        exitStack := none
        crashReason := none } [] := by
  simp only [doShutdown, stopRunningTasks, resetCore]
  split <;> split <;> split <;> rfl

/-- The `_do_shutdown` trace starts with `on_stop` fired in STOPPING
and ends with `on_shutdown` fired in SHUTDOWN. -/
theorem doShutdown_trace (c : Core) (cs : List Srv) :
    ∃ mid, (doShutdown (.mk c cs)).2 =
      Ev.hStop .STOPPING :: mid ++ [Ev.hShutdown .SHUTDOWN] :=
  ⟨_, rfl⟩

/-- C10 (confirmed): `stop()` on a never-started service still in INIT
runs the full shutdown sequence: the trace starts with `on_stop` fired
in state STOPPING and ends with `on_shutdown` fired in state SHUTDOWN,
the `stopped` notification is set and the final state is SHUTDOWN. -/
theorem C10_stop_from_init (c : Core) (cs : List Srv)
    (_hstate : c.state = .INIT) (hstop : c.stoppedSet = false) :
    (stop (.mk c cs)).1.core.state = .SHUTDOWN ∧
    (stop (.mk c cs)).1.core.stoppedSet = true ∧
    ∃ mid, (stop (.mk c cs)).2 =
      Ev.hStop .STOPPING :: mid ++ [Ev.hShutdown .SHUTDOWN] := by
  unfold stop
  rw [if_neg (by simp [Srv.core, hstop])]
  exact ⟨by rw [doShutdown_srv]; rfl, by rw [doShutdown_srv]; rfl,
    doShutdown_trace c cs⟩

/-- C10 (witness): stopping a fresh, never-started service. -/
theorem C10_witness :
    (stop (.mk freshCore [])).1.core.state = .SHUTDOWN ∧
    (stop (.mk freshCore [])).1.core.stoppedSet = true ∧
    ∃ mid, (stop (.mk freshCore [])).2 =
      Ev.hStop .STOPPING :: mid ++ [Ev.hShutdown .SHUTDOWN] :=
  C10_stop_from_init freshCore [] rfl rfl

/-- C9 (confirmed): `start`, `crash`, `restart` and `add_task` check
their state guard before any mutation: whenever they raise
`AlreadyRunning`/`NotRunning`, the service value is returned exactly
unchanged (state, stopped, should_stop, crash_reason, start_count,
tasks_to_start, live tasks and children all intact) and no event was
emitted. -/
theorem C9_misuse_unchanged (s : Srv) (reason f : Nat) :
    (¬ (s.core.state = .INIT ∨ s.core.state = .SHUTDOWN) →
      start s = (some (.alreadyRun s.core.state), s, [])) ∧
    (¬ (s.core.state = .RUNNING ∨ s.core.state = .STOPPING) →
      crash reason s = (some (.notRun s.core.state), s, [])) ∧
    (¬ (s.core.state = .RUNNING ∨ s.core.state = .CRASHED ∨
        s.core.state = .SHUTDOWN) →
      restart s = (some (.notRun s.core.state), s, [])) ∧
    (s.core.state ≠ .INIT →
      addTask s f = (some (.alreadyRun s.core.state), s)) := by
  obtain ⟨c, cs⟩ := s
  refine ⟨fun h => ?_, fun h => ?_, fun h => ?_, fun h => ?_⟩
  · simp only [start]
    rw [if_neg (by simpa [Srv.core] using h)]
    rfl
  · simp only [crash]
    rw [if_neg (by simpa [Srv.core] using h)]
    rfl
  · unfold restart
    rw [if_neg (by simpa [Srv.core] using h)]
  · unfold addTask
    rw [if_neg (by simpa [Srv.core] using h)]

/-- C9 (witness): a RUNNING service rejects `start`/`add_task`, an INIT
service rejects `crash`/`restart`; each call returns the value
unchanged. -/
theorem C9_witness :
    start (.mk cRunning []) =
      (some (.alreadyRun .RUNNING), .mk cRunning [], []) ∧
    addTask (.mk cRunning []) 3 =
      (some (.alreadyRun .RUNNING), .mk cRunning []) ∧
    crash 7 (.mk freshCore []) =
      (some (.notRun .INIT), .mk freshCore [], []) ∧
    restart (.mk freshCore []) =
      (some (.notRun .INIT), .mk freshCore [], []) := by
  refine ⟨(C9_misuse_unchanged (.mk cRunning []) 7 3).1 (by decide),
    (C9_misuse_unchanged (.mk cRunning []) 7 3).2.2.2 (by decide),
    (C9_misuse_unchanged (.mk freshCore []) 7 3).2.1 (by decide),
    (C9_misuse_unchanged (.mk freshCore []) 7 3).2.2.1 (by decide)⟩

/-- Starting the service left by `_do_shutdown` (SHUTDOWN, no children,
no pending context managers): it succeeds and spawns the registered
tasks afresh plus the child-watch task. -/
theorem start_after_reset (sc : Nat) (tts : List Nat) :
    (start (.mk
      { state := .SHUTDOWN, startCount := sc, shouldStop := false,
        tasksToStart := tts, tasks := [], stoppedSet := true,
        asyncCMs := [], asyncExitStack := none, syncCMs := [],
        exitStack := none, crashReason := none } [])).1 = none ∧
    (start (.mk
      { state := .SHUTDOWN, startCount := sc, shouldStop := false,
        tasksToStart := tts, tasks := [], stoppedSet := true,
        asyncCMs := [], asyncExitStack := none, syncCMs := [],
        exitStack := none, crashReason := none } [])).2.1 = .mk
      { state := .RUNNING
        startCount := sc + 1
        shouldStop := false
        tasksToStart := tts
        tasks := (tts.map fun n => LiveTask.mk (.guarded n) false) ++
          [LiveTask.mk .watcher false]
        stoppedSet := false
        asyncCMs := []
        asyncExitStack := none
        syncCMs := []
        exitStack := none
        crashReason := none } [] := by
  constructor <;> simp [start, startChildren, spawnTasks]

/-- C1 (counterexample): a RUNNING service owning one registered child
and no registered tasks.  After `restart()` the children list is empty
(`_reset` inside `_do_shutdown` clears it), contradicting "preserves
the registered children"; and `live_tasks` holds the freshly spawned
child-watch task, so it is not reset to its initial empty value. -/
theorem C1_counterexample :
    sRunWithChild.children ≠ [] ∧
    (restart sRunWithChild).2.1.children = [] ∧
    (restart sRunWithChild).2.1.core.tasks ≠ [] := by
  have h : (restart sRunWithChild).2.1.core.tasks =
      [LiveTask.mk .watcher false] := rfl
  exact ⟨by simp [sRunWithChild, Srv.children], rfl, by simp [h]⟩

/-- C1 (amended): `restart()` on a service in {RUNNING, CRASHED,
SHUTDOWN} succeeds and preserves `tasks_to_start` (and `start_count`,
which it increments by the successful start); but the registered
children are stopped and then CLEARED, not preserved; `should_stop` and
`crash_reason` are reset to false/none; and `live_tasks` is replaced by
a fresh set of tasks spawned from `tasks_to_start` plus the child-watch
task (not by the empty set). -/
theorem C1_restart_effects (c : Core) (cs : List Srv)
    (h : c.state = .RUNNING ∨ c.state = .CRASHED ∨ c.state = .SHUTDOWN) :
    (restart (.mk c cs)).1 = none ∧
    (restart (.mk c cs)).2.1 = .mk
      { state := .RUNNING
        startCount := c.startCount + 1
        shouldStop := false
        tasksToStart := c.tasksToStart
        tasks := (c.tasksToStart.map fun n => LiveTask.mk (.guarded n) false) ++
          [LiveTask.mk .watcher false]
        stoppedSet := false
        asyncCMs := []
        asyncExitStack := none
        syncCMs := []
        exitStack := none
        crashReason := none } [] := by
  unfold restart
  rw [if_pos (by simpa [Srv.core] using h)]
  simp only []
  rw [doShutdown_srv]
  rcases hst : start (.mk
      { state := .SHUTDOWN, startCount := c.startCount, shouldStop := false,
        tasksToStart := c.tasksToStart, tasks := [], stoppedSet := true,
        asyncCMs := [], asyncExitStack := none, syncCMs := [],
        exitStack := none, crashReason := none } []) with ⟨e, s2, t2⟩
  have h1 := (start_after_reset c.startCount c.tasksToStart).1
  have h2 := (start_after_reset c.startCount c.tasksToStart).2
  rw [hst] at h1 h2
  simp only [hst]
  exact ⟨h1, h2⟩

/-- C1 (witness): restarting a RUNNING service with one registered task
spec and one child. -/
theorem C1_witness :
    (restart (.mk { cRunning with tasksToStart := [4] }
        [.mk freshCore []])).1 = none ∧
    (restart (.mk { cRunning with tasksToStart := [4] }
        [.mk freshCore []])).2.1 = .mk
      { state := .RUNNING
        startCount := 2
        shouldStop := false
        tasksToStart := [4]
        tasks := [LiveTask.mk (.guarded 4) false, LiveTask.mk .watcher false]
        stoppedSet := false
        asyncCMs := []
        asyncExitStack := none
        syncCMs := []
        exitStack := none
        crashReason := none } [] :=
  C1_restart_effects { cRunning with tasksToStart := [4] }
    [.mk freshCore []] (by simp [cRunning, freshCore])

/-- Re-labelling suspension snapshots does not change the release
events of a trace. -/
theorem releases_relabel (b : Bool) (st : SState) (t : List Ev) :
    releases (relabel b st t) = releases t := by
  induction t with
  | nil => rfl
  | cons e rest ih =>
    cases e <;> simp [relabel, releases, isRelease, List.filter] at ih ⊢ <;>
      exact ih

/-- Release events distribute over trace concatenation. -/
theorem releases_append (a b : List Ev) :
    releases (a ++ b) = releases a ++ releases b :=
  List.filter_append a b

/-- The loop entering context managers emits only acquisition events:
no release events appear in its trace. -/
theorem enterAll_releases (ev : Nat → Ev)
    (hev : ∀ n, isRelease (ev n) = false) :
    ∀ rs acc, releases (enterAll ev acc rs).2.2 = [] := by
  intro rs
  induction rs with
  | nil => intro acc; rfl
  | cons r rest ih =>
    intro acc
    simp only [enterAll]
    by_cases hr : r.acquireOk
    · rw [if_pos hr]
      rcases he : enterAll ev (acc ++ [r.rid]) rest with ⟨e, st, t⟩
      have := ih (acc ++ [r.rid])
      rw [he] at this
      simpa [releases, List.filter, hev r.rid] using this
    · rw [if_neg hr]
      rfl

/-- Entering a context-manager list whose first failing element is `r`:
all of `pre` is entered (in order), the failure aborts the loop with
`r.rid` and no event for `r` or anything after it. -/
theorem enterAll_fail (ev : Nat → Ev) (r : Resource) (post : List Resource)
    (hr : r.acquireOk = false) :
    ∀ pre acc, (∀ p ∈ pre, p.acquireOk = true) →
      enterAll ev acc (pre ++ r :: post) =
        (some r.rid, acc ++ pre.map Resource.rid,
         pre.map fun p => ev p.rid) := by
  intro pre
  induction pre with
  | nil =>
    intro acc _
    simp [enterAll, hr]
  | cons p ps ih =>
    intro acc hpre
    have hp : p.acquireOk = true := hpre p (by simp)
    simp only [List.cons_append, enterAll, hp, if_pos, List.append_eq]
    rw [ih (acc ++ [p.rid]) fun q hq => hpre q (by simp [hq])]
    simp

mutual

/-- `start` never emits a release event (releases happen only in
`_do_shutdown`). -/
theorem start_no_release (s : Srv) : releases (start s).2.2 = [] := by
  obtain ⟨c, cs⟩ := s
  by_cases hg : c.state = .INIT ∨ c.state = .SHUTDOWN
  · simp only [start]
    rw [if_pos hg]
    rcases hsc : startChildren cs with ⟨e, cs', tC⟩
    have hC : releases tC = [] := by
      have := startChildren_no_release cs
      rw [hsc] at this
      exact this
    have hFirst :
        releases (if c.startCount = 0 then [Ev.hFirstStart SState.STARTING]
          else []) = [] := by
      by_cases h0 : c.startCount = 0 <;>
        simp [h0, releases, List.filter, isRelease]
    cases e with
    | some e0 =>
      simp only [releases_append, releases_relabel, hC, hFirst]
      rfl
    | none =>
      simp only []
      by_cases hA : c.asyncCMs.isEmpty = true
      · rw [if_pos hA]
        simp only []
        by_cases hS : c.syncCMs.isEmpty = true
        · rw [if_pos hS]
          simp only [releases_append, releases_relabel, hC, hFirst]
          rfl
        · rw [if_neg hS]
          rcases hE : enterAll Ev.acqS [] c.syncCMs with ⟨e2, ent2, t2⟩
          have hT2 : releases t2 = [] := by
            have := enterAll_releases Ev.acqS (fun _ => rfl) c.syncCMs []
            rw [hE] at this
            exact this
          cases e2 <;>
            (simp only [releases_append, releases_relabel, hC, hFirst, hT2]
             rfl)
      · rw [if_neg hA]
        rcases hE : enterAll Ev.acqA [] c.asyncCMs with ⟨e1, ent1, t1⟩
        have hT1 : releases t1 = [] := by
          have := enterAll_releases Ev.acqA (fun _ => rfl) c.asyncCMs []
          rw [hE] at this
          exact this
        cases e1 with
        | some r1 =>
          simp only [releases_append, releases_relabel, hC, hFirst, hT1]
          rfl
        | none =>
          simp only []
          by_cases hS : c.syncCMs.isEmpty = true
          · rw [if_pos hS]
            simp only [releases_append, releases_relabel, hC, hFirst, hT1]
            rfl
          · rw [if_neg hS]
            rcases hE2 : enterAll Ev.acqS [] c.syncCMs with ⟨e2, ent2, t2⟩
            have hT2 : releases t2 = [] := by
              have := enterAll_releases Ev.acqS (fun _ => rfl) c.syncCMs []
              rw [hE2] at this
              exact this
            cases e2 <;>
              (simp only [releases_append, releases_relabel, hC, hFirst,
                 hT1, hT2]
               rfl)
  · simp only [start]
    rw [if_neg hg]
    rfl

/-- The children `maybe_start` gather never emits a release event. -/
theorem startChildren_no_release (l : List Srv) :
    releases (startChildren l).2.2 = [] := by
  cases l with
  | nil => rfl
  | cons x xs =>
    simp only [startChildren]
    by_cases hx : x.core.state = .INIT
    · rw [if_pos hx]
      rcases hcx : start x with ⟨e1, x', t1⟩
      have hX : releases t1 = [] := by
        have := start_no_release x
        rw [hcx] at this
        exact this
      cases e1 with
      | some e0 => exact hX
      | none =>
        rcases hrest : startChildren xs with ⟨e2, xs', t2⟩
        have hXs : releases t2 = [] := by
          have := startChildren_no_release xs
          rw [hrest] at this
          exact this
        simp only []
        rw [releases_append, hX, hXs]
        rfl
    · rw [if_neg hx]
      rcases hrest : startChildren xs with ⟨e2, xs', t2⟩
      have := startChildren_no_release xs
      rw [hrest] at this
      exact this

end

/-- C3 (counterexample): a fresh service with two async scoped
resources where the second fails to acquire.  `start()` propagates the
acquisition error, the first resource was acquired, yet no release
event occurred during `start` (the exit stack still holds resource 1),
contradicting "every previously acquired resource is released before
start() fails". -/
theorem C3_counterexample :
    (start (.mk cAcqFail [])).1 = some (.user 2) ∧
    Ev.acqA 1 ∈ (start (.mk cAcqFail [])).2.2 ∧
    releases (start (.mk cAcqFail [])).2.2 = [] ∧
    (start (.mk cAcqFail [])).2.1.core.asyncExitStack = some [1] := by
  have h : (start (.mk cAcqFail [])).2.2 =
      [Ev.hFirstStart .STARTING, Ev.hStart .STARTING, Ev.acqA 1] := rfl
  exact ⟨rfl, by rw [h]; simp, rfl, rfl⟩

/-- C3 (amended): if acquisition of async resource `r` fails during
`start()` (all earlier async resources having acquired), the
acquisition error `user r.rid` propagates out of `start`, but the
previously acquired resources are NOT released before `start` fails: no
release event is emitted during the whole `start`, the exit stack
retains the acquired prefix (in acquisition order, to be released only
by a later shutdown), the pending registration list is left uncleared,
and the sync exit stack is untouched. -/
theorem C3_acquire_failure (c : Core) (cs : List Srv)
    (pre post : List Resource) (r : Resource)
    (hg : c.state = .INIT ∨ c.state = .SHUTDOWN)
    (hcms : c.asyncCMs = pre ++ r :: post)
    (hpre : ∀ p ∈ pre, p.acquireOk = true)
    (hr : r.acquireOk = false)
    (hchild : (startChildren cs).1 = none) :
    (start (.mk c cs)).1 = some (.user r.rid) ∧
    (start (.mk c cs)).2.1.core.asyncExitStack =
      some (pre.map Resource.rid) ∧
    (start (.mk c cs)).2.1.core.asyncCMs = c.asyncCMs ∧
    (start (.mk c cs)).2.1.core.exitStack = c.exitStack ∧
    releases (start (.mk c cs)).2.2 = [] := by
  refine ⟨?_, ?_, ?_, ?_, start_no_release (.mk c cs)⟩ <;>
  · simp only [start]
    rw [if_pos hg]
    rcases hsc : startChildren cs with ⟨e, cs', tC⟩
    rw [hsc] at hchild
    obtain rfl : e = none := hchild
    simp only []
    have hA : ¬ c.asyncCMs.isEmpty = true := by
      simp [hcms]
    rw [if_neg hA, hcms,
      enterAll_fail Ev.acqA r post hr pre [] hpre]
    try rfl

/-- C3 (witness): the failing acquisition scenario at a concrete
service. -/
theorem C3_witness :
    (start (.mk cAcqFail [])).2.1.core.asyncExitStack = some [1] ∧
    (start (.mk cAcqFail [])).2.1.core.asyncCMs = cAcqFail.asyncCMs ∧
    releases (start (.mk cAcqFail [])).2.2 = [] := by
  have h := C3_acquire_failure cAcqFail [] [⟨1, true⟩] [] ⟨2, false⟩
    (Or.inl rfl) rfl (by decide) rfl rfl
  exact ⟨h.2.1, h.2.2.1, h.2.2.2.2⟩

/-- When `start` returns without error, the service ends RUNNING, the
children gather ended without error, and the resulting children are
exactly those produced by the gather. -/
theorem start_ok_shape (c : Core) (cs : List Srv)
    (h : (start (.mk c cs)).1 = none) :
    (start (.mk c cs)).2.1.core.state = .RUNNING ∧
    (startChildren cs).1 = none ∧
    (start (.mk c cs)).2.1.children = (startChildren cs).2.1 := by
  by_cases hg : c.state = .INIT ∨ c.state = .SHUTDOWN
  · simp only [start] at h ⊢
    rw [if_pos hg] at h ⊢
    rcases hsc : startChildren cs with ⟨e, cs', tC⟩
    rw [hsc] at h
    cases e with
    | some e0 => simp at h
    | none =>
      simp only [] at h ⊢
      refine ⟨?_, by trivial, ?_⟩ <;>
      · by_cases hA : c.asyncCMs.isEmpty = true
        · rw [if_pos hA] at h ⊢
          simp only [] at h ⊢
          by_cases hS : c.syncCMs.isEmpty = true
          · rw [if_pos hS] at h ⊢
            rfl
          · rw [if_neg hS] at h ⊢
            rcases hE : enterAll Ev.acqS [] c.syncCMs with ⟨e2, ent2, t2⟩
            rw [hE] at h
            cases e2 with
            | some r2 => simp at h
            | none => rfl
        · rw [if_neg hA] at h ⊢
          rcases hE : enterAll Ev.acqA [] c.asyncCMs with ⟨e1, ent1, t1⟩
          rw [hE] at h
          cases e1 with
          | some r1 => simp at h
          | none =>
            simp only [] at h ⊢
            by_cases hS : c.syncCMs.isEmpty = true
            · rw [if_pos hS] at h ⊢
              rfl
            · rw [if_neg hS] at h ⊢
              rcases hE2 : enterAll Ev.acqS [] c.syncCMs with ⟨e2, ent2, t2⟩
              rw [hE2] at h
              cases e2 with
              | some r2 => simp at h
              | none => rfl
  · simp only [start] at h
    rw [if_neg hg] at h
    simp at h

/-- When `start` returns without error, the started service is
RUNNING. -/
theorem start_ok_state (s : Srv) (h : (start s).1 = none) :
    (start s).2.1.core.state = .RUNNING := by
  obtain ⟨c, cs⟩ := s
  exact (start_ok_shape c cs h).1

/-- The children gather (`maybe_start` on each child): when it raises
no error, children that were INIT end RUNNING and all other children
are returned untouched, positionally. -/
theorem startChildren_forall2 :
    ∀ l, (startChildren l).1 = none →
      List.Forall₂ (fun x y =>
        (x.core.state = .INIT → y.core.state = .RUNNING) ∧
        (x.core.state ≠ .INIT → y = x)) l (startChildren l).2.1 := by
  intro l
  induction l with
  | nil => intro _; exact List.Forall₂.nil
  | cons x xs ih =>
    intro h
    simp only [startChildren] at h ⊢
    by_cases hx : x.core.state = .INIT
    · rw [if_pos hx] at h ⊢
      rcases hcx : start x with ⟨e1, x', t1⟩
      rw [hcx] at h
      cases e1 with
      | some e0 => simp at h
      | none =>
        rcases hrest : startChildren xs with ⟨e2, xs', t2⟩
        rw [hrest] at h
        simp only [] at h ⊢
        have hx' : x'.core.state = .RUNNING := by
          have := start_ok_state x (by rw [hcx])
          rw [hcx] at this
          exact this
        have htail := ih (by rw [hrest]; exact h)
        rw [hrest] at htail
        exact List.Forall₂.cons
          ⟨fun _ => hx', fun hne => absurd hx hne⟩ htail
    · rw [if_neg hx] at h ⊢
      rcases hrest : startChildren xs with ⟨e2, xs', t2⟩
      rw [hrest] at h
      simp only [] at h ⊢
      have htail := ih (by rw [hrest]; exact h)
      rw [hrest] at htail
      exact List.Forall₂.cons
        ⟨fun hinit => absurd hinit hx, fun _ => rfl⟩ htail

/-- C4 (counterexample): a fresh parent owning one CRASHED child.
`start()` returns normally and the parent is RUNNING, but the child is
still CRASHED, not RUNNING (`maybe_start` skips any child not in
INIT), contradicting "every child C in S.children has state RUNNING"
for children in arbitrary states. -/
theorem C4_counterexample :
    (start sInitWithCrashedChild).1 = none ∧
    (start sInitWithCrashedChild).2.1.core.state = .RUNNING ∧
    ((start sInitWithCrashedChild).2.1.children.map fun x => x.core.state) =
      [.CRASHED] ∧
    SState.CRASHED ≠ SState.RUNNING := by
  exact ⟨rfl, rfl, rfl, by decide⟩

/-- C4 (amended): when `S.start()` returns normally, `S.state` is
RUNNING, and positionally: every child that was in INIT is RUNNING,
while every child in any other state is returned exactly unchanged
(`maybe_start` starts only INIT children). -/
theorem C4_start_cascade (c : Core) (cs : List Srv)
    (h : (start (.mk c cs)).1 = none) :
    (start (.mk c cs)).2.1.core.state = .RUNNING ∧
    List.Forall₂ (fun x y =>
      (x.core.state = .INIT → y.core.state = .RUNNING) ∧
      (x.core.state ≠ .INIT → y = x)) cs (start (.mk c cs)).2.1.children := by
  obtain ⟨h1, h2, h3⟩ := start_ok_shape c cs h
  rw [h3]
  exact ⟨h1, startChildren_forall2 cs h2⟩

/-- C4 (witness): starting a fresh parent with one INIT child makes
both RUNNING. -/
theorem C4_witness :
    (start (.mk freshCore [.mk freshCore []])).2.1.core.state = .RUNNING ∧
    List.Forall₂ (fun x y =>
      (x.core.state = .INIT → y.core.state = .RUNNING) ∧
      (x.core.state ≠ .INIT → y = x)) [.mk freshCore []]
      (start (.mk freshCore [.mk freshCore []])).2.1.children :=
  C4_start_cascade freshCore [.mk freshCore []] rfl

mutual

/-- `crash` on an active service never raises: the guard passed, and
each recursive child crash is guarded by the same active-state check
before the call. -/
theorem crash_ok (r : Nat) (s : Srv)
    (h : s.core.state = .RUNNING ∨ s.core.state = .STOPPING) :
    (crash r s).1 = none := by
  obtain ⟨c, cs⟩ := s
  simp only [Srv.core] at h
  simp only [crash]
  rw [if_pos h]
  rcases hcc : crashChildren r cs with ⟨e, cs', t2⟩
  have he : e = none := by
    have := crashChildren_ok r cs
    rw [hcc] at this
    exact this
  subst he
  rfl

/-- The child-crash loop never raises. -/
theorem crashChildren_ok (r : Nat) (l : List Srv) :
    (crashChildren r l).1 = none := by
  cases l with
  | nil => rfl
  | cons x xs =>
    simp only [crashChildren]
    by_cases hx : x.core.state = .RUNNING ∨ x.core.state = .STOPPING
    · rw [if_pos hx]
      rcases hcx : crash r x with ⟨e1, x', t1⟩
      have he1 : e1 = none := by
        have := crash_ok r x hx
        rw [hcx] at this
        exact this
      subst he1
      rcases hrest : crashChildren r xs with ⟨e2, xs', t2⟩
      have he2 : e2 = none := by
        have := crashChildren_ok r xs
        rw [hrest] at this
        exact this
      subst he2
      rfl
    · rw [if_neg hx]
      rcases hrest : crashChildren r xs with ⟨e2, xs', t2⟩
      have he2 : e2 = none := by
        have := crashChildren_ok r xs
        rw [hrest] at this
        exact this
      subst he2
      rfl

end

/-- `_do_shutdown` always re-establishes the `stopped`/state
equivalence: it leaves SHUTDOWN with `stopped` set and no children. -/
theorem doShutdown_qinv (s : Srv) : qinv (doShutdown s).1 = true := by
  obtain ⟨c, cs⟩ := s
  rw [doShutdown_srv]
  rfl

/-- `stop` preserves the `stopped`/state equivalence. -/
theorem stop_qinv (s : Srv) (h : qinv s = true) : qinv (stop s).1 = true := by
  unfold stop
  by_cases hs : s.core.stoppedSet
  · rw [if_pos hs]
    exact h
  · rw [if_neg hs]
    exact doShutdown_qinv s

mutual

/-- `crash` preserves the `stopped`/state equivalence of the service
and all its descendants. -/
theorem crash_qinv (r : Nat) (s : Srv) (h : qinv s = true) :
    qinv (crash r s).2.1 = true := by
  obtain ⟨c, cs⟩ := s
  simp only [qinv, Bool.and_eq_true] at h
  by_cases hg : c.state = .RUNNING ∨ c.state = .STOPPING
  · simp only [crash]
    rw [if_pos hg]
    rcases hcc : crashChildren r cs with ⟨e, cs', t2⟩
    have he : e = none := by
      have := crashChildren_ok r cs
      rw [hcc] at this
      exact this
    subst he
    have hcs' : allQinv cs' = true := by
      have := crashChildren_qinv r cs h.2
      rw [hcc] at this
      exact this
    simp only [qinv, Bool.and_eq_true]
    exact ⟨rfl, hcs'⟩
  · simp only [crash]
    rw [if_neg hg]
    simp only [qinv, Bool.and_eq_true]
    exact ⟨h.1, h.2⟩

/-- The child-crash loop preserves the equivalence for every child. -/
theorem crashChildren_qinv (r : Nat) (l : List Srv)
    (h : allQinv l = true) : allQinv (crashChildren r l).2.1 = true := by
  cases l with
  | nil => rfl
  | cons x xs =>
    simp only [allQinv, Bool.and_eq_true] at h
    simp only [crashChildren]
    by_cases hx : x.core.state = .RUNNING ∨ x.core.state = .STOPPING
    · rw [if_pos hx]
      rcases hcx : crash r x with ⟨e1, x', t1⟩
      have he1 : e1 = none := by
        have := crash_ok r x hx
        rw [hcx] at this
        exact this
      subst he1
      rcases hrest : crashChildren r xs with ⟨e2, xs', t2⟩
      simp only [allQinv, Bool.and_eq_true]
      constructor
      · have := crash_qinv r x h.1
        rw [hcx] at this
        exact this
      · have := crashChildren_qinv r xs h.2
        rw [hrest] at this
        exact this
    · rw [if_neg hx]
      rcases hrest : crashChildren r xs with ⟨e2, xs', t2⟩
      simp only [allQinv, Bool.and_eq_true]
      refine ⟨h.1, ?_⟩
      have := crashChildren_qinv r xs h.2
      rw [hrest] at this
      exact this

end

mutual

/-- `start` preserves the `stopped`/state equivalence of the service
and all its descendants, on every outcome (success, state-misuse
rejection, child failure, resource-acquisition failure). -/
theorem start_qinv (s : Srv) (h : qinv s = true) :
    qinv (start s).2.1 = true := by
  obtain ⟨c, cs⟩ := s
  simp only [qinv, Bool.and_eq_true] at h
  by_cases hg : c.state = .INIT ∨ c.state = .SHUTDOWN
  · simp only [start]
    rw [if_pos hg]
    rcases hsc : startChildren cs with ⟨e, cs', tC⟩
    have hcs' : allQinv cs' = true := by
      have := startChildren_qinv cs h.2
      rw [hsc] at this
      exact this
    cases e with
    | some e0 =>
      simp only [qinv, Bool.and_eq_true]
      exact ⟨rfl, hcs'⟩
    | none =>
      simp only []
      by_cases hA : c.asyncCMs.isEmpty = true
      · rw [if_pos hA]
        simp only []
        by_cases hS : c.syncCMs.isEmpty = true
        · rw [if_pos hS]
          simp only [qinv, Bool.and_eq_true]
          exact ⟨rfl, hcs'⟩
        · rw [if_neg hS]
          rcases hE : enterAll Ev.acqS [] c.syncCMs with ⟨e2, ent2, t2⟩
          cases e2 <;>
            (simp only [qinv, Bool.and_eq_true]; exact ⟨rfl, hcs'⟩)
      · rw [if_neg hA]
        rcases hE : enterAll Ev.acqA [] c.asyncCMs with ⟨e1, ent1, t1⟩
        cases e1 with
        | some r1 =>
          simp only [qinv, Bool.and_eq_true]
          exact ⟨rfl, hcs'⟩
        | none =>
          simp only []
          by_cases hS : c.syncCMs.isEmpty = true
          · rw [if_pos hS]
            simp only [qinv, Bool.and_eq_true]
            exact ⟨rfl, hcs'⟩
          · rw [if_neg hS]
            rcases hE2 : enterAll Ev.acqS [] c.syncCMs with ⟨e2, ent2, t2⟩
            cases e2 <;>
              (simp only [qinv, Bool.and_eq_true]; exact ⟨rfl, hcs'⟩)
  · simp only [start]
    rw [if_neg hg]
    simp only [qinv, Bool.and_eq_true]
    exact ⟨h.1, h.2⟩

/-- The children `maybe_start` gather preserves the equivalence for
every child. -/
theorem startChildren_qinv (l : List Srv) (h : allQinv l = true) :
    allQinv (startChildren l).2.1 = true := by
  cases l with
  | nil => rfl
  | cons x xs =>
    simp only [allQinv, Bool.and_eq_true] at h
    simp only [startChildren]
    by_cases hx : x.core.state = .INIT
    · rw [if_pos hx]
      rcases hcx : start x with ⟨e1, x', t1⟩
      have hx' : qinv x' = true := by
        have := start_qinv x h.1
        rw [hcx] at this
        exact this
      cases e1 with
      | some e0 =>
        simp only [allQinv, Bool.and_eq_true]
        exact ⟨hx', h.2⟩
      | none =>
        rcases hrest : startChildren xs with ⟨e2, xs', t2⟩
        simp only [allQinv, Bool.and_eq_true]
        refine ⟨hx', ?_⟩
        have := startChildren_qinv xs h.2
        rw [hrest] at this
        exact this
    · rw [if_neg hx]
      rcases hrest : startChildren xs with ⟨e2, xs', t2⟩
      simp only [allQinv, Bool.and_eq_true]
      refine ⟨h.1, ?_⟩
      have := startChildren_qinv xs h.2
      rw [hrest] at this
      exact this

end

/-- `restart` preserves the `stopped`/state equivalence. -/
theorem restart_qinv (s : Srv) (h : qinv s = true) :
    qinv (restart s).2.1 = true := by
  unfold restart
  by_cases hg : s.core.state = .RUNNING ∨ s.core.state = .CRASHED ∨
      s.core.state = .SHUTDOWN
  · rw [if_pos hg]
    simp only []
    rcases hst : start (doShutdown s).1 with ⟨e, s2, t2⟩
    have := start_qinv (doShutdown s).1 (doShutdown_qinv s)
    rw [hst] at this
    simp only []
    exact this
  · rw [if_neg hg]
    exact h

/-- C6 (counterexample): a RUNNING parent whose RUNNING child owns a
live task.  During `crash` the parent's `stopped` notification is
already set while the parent is still observably RUNNING: the trace of
`crash` contains a cooperative-suspension snapshot (taken while the
child's task cancellation is awaited) with `stopped = true` and
`state = RUNNING`, which is not a stopped state — refuting "at every
observation point, stopped is set iff the state is SHUTDOWN or
CRASHED". -/
theorem C6_counterexample :
    Ev.susp true .RUNNING ∈ (crash 9 sRunWithBusyChild).2.2 ∧
    isStoppedState .RUNNING = false := by
  have h : (crash 9 sRunWithBusyChild).2.2 =
      [Ev.susp true .RUNNING, Ev.susp true .RUNNING] := rfl
  exact ⟨by rw [h]; simp, rfl⟩

/-- C6 (amended): the equivalence "stopped is set iff the state is
SHUTDOWN or CRASHED" holds at operation boundaries rather than at every
observation point: it holds for a fresh service and is preserved, for
the service and all its descendants, by every completed
`start`/`stop`/`crash`/`restart` call (whether it returns or raises);
inside `crash` there is a suspension window where `stopped` is set
while the state is still RUNNING. -/
theorem C6_boundary_invariant (reason : Nat) (s : Srv)
    (h : qinv s = true) :
    qinv (.mk freshCore []) = true ∧
    qinv (start s).2.1 = true ∧
    qinv (stop s).1 = true ∧
    qinv (crash reason s).2.1 = true ∧
    qinv (restart s).2.1 = true :=
  ⟨rfl, start_qinv s h, stop_qinv s h, crash_qinv reason s h,
   restart_qinv s h⟩

/-- C6 (witness): the boundary invariant applied to a RUNNING parent
with an INIT child. -/
theorem C6_witness :
    qinv (start sRunWithChild).2.1 = true ∧
    qinv (stop sRunWithChild).1 = true ∧
    qinv (crash 3 sRunWithChild).2.1 = true ∧
    qinv (restart sRunWithChild).2.1 = true := by
  have h := C6_boundary_invariant 3 sRunWithChild (by rfl)
  exact ⟨h.2.1, h.2.2.1, h.2.2.2.1, h.2.2.2.2⟩

end Modern
